import Mathlib

/-!
# Verification of the USERS transactional ledger engine

Shallow embedding of the ledger core of the repository:
`src/services/transaction.service.ts` (deposit / withdraw / transfer /
getTransactions), the entities `transaction.entity.ts` and
`balance.entity.ts`, the amount validation rules of
`dto/transaction.dto.ts` (applied globally via the `APP_PIPE`
`ValidationPipe` registered in `app.module.ts`), and the post-save side
effects of `audit.service.ts` / `email.service.ts`.

Monetary amounts are modelled as rationals (the columns are
`decimal(15,2)`), row creation order (`createdAt`) as a `Nat` counter,
and the observable actions taken while the storage transaction is open
(row locks, audit calls, email dispatch, commit) as an event trace.
Each service operation is a pure function from a ledger state to an
`Outcome`: the result the caller sees, the state after the storage
transaction finished (unchanged when the operation threw, since
`dataSource.transaction` rolls back), and the event trace.
-/

namespace Users

/-- The `TransactionType` enum of `src/entities/transaction.entity.ts`. -/
inductive TransactionType
  | deposit
  | withdrawal
  | transfer
deriving DecidableEq, Repr

/-- The `TransactionStatus` enum of `src/entities/transaction.entity.ts`. -/
inductive TransactionStatus
  | pending
  | completed
  | failed
deriving DecidableEq, Repr

/-- Modelled from the spec: the `User` entity file is not under `src/`;
the ledger operations of `transaction.service.ts` use only its `id`
(opaque unique key) and `email` (unique, used to resolve transfer
recipients), exactly the fields §3 of the spec gives to `Account`. -/
structure User where
  id : String
  email : String
deriving DecidableEq, Repr

/-- The persisted columns of the `transactions` entity
(`src/entities/transaction.entity.ts`): `id`, `userId`, `type`,
`amount`, `status`, `description` (nullable), `recipientUserId`
(nullable, set for transfers), `balanceAfter` (nullable decimal), and
`createdAt`.  Note the entity declares **no** `balanceBefore` column. -/
structure Transaction where
  id : Nat
  userId : String
  type : TransactionType
  amount : ℚ
  status : TransactionStatus
  description : Option String
  recipientUserId : Option String
  balanceAfter : Option ℚ
  createdAt : Nat
deriving DecidableEq, Repr

/-- The column names declared by the `transactions` entity, in source
order (`@PrimaryGeneratedColumn`, `@Column`, `@CreateDateColumn`). -/
def transactionEntityColumns : List String :=
  ["id", "userId", "type", "amount", "status", "description",
   "recipientUserId", "balanceAfter", "createdAt"]

/-- The object literal the service passes to
`manager.create(Transaction, {...})`: it includes a `balanceBefore`
field in addition to the entity's columns. -/
structure TransactionCreateInput where
  userId : String
  type : TransactionType
  amount : ℚ
  status : TransactionStatus
  description : String
  recipientUserId : Option String := none
  balanceBefore : Option ℚ := none
  balanceAfter : Option ℚ := none
deriving DecidableEq, Repr

/-- Persistence via `manager.create` + `manager.save`: only the columns declared by the
entity are persisted, so the `balanceBefore` value supplied by the
service is dropped (the entity has no such column); `id` and
`createdAt` are generated by the store. -/
def createTransaction (i : TransactionCreateInput) (id createdAt : Nat) :
    Transaction :=
  { id := id
    userId := i.userId
    type := i.type
    amount := i.amount
    status := i.status
    description := some i.description
    recipientUserId := i.recipientUserId
    balanceAfter := i.balanceAfter
    createdAt := createdAt }

/-- The `balances` entity (`src/entities/balance.entity.ts`): `id`,
`userId`, `transactionId` (nullable), `balanceBefore`, `balanceAfter`,
`description` (nullable), `createdAt`. -/
structure Balance where
  id : Nat
  userId : String
  transactionId : Option Nat
  balanceBefore : ℚ
  balanceAfter : ℚ
  description : Option String
  createdAt : Nat
deriving DecidableEq, Repr

/-- The `DepositDto` of `src/dto/transaction.dto.ts` (payload fields). -/
structure DepositDto where
  amount : ℚ
  description : Option String
deriving DecidableEq, Repr

/-- The `WithdrawDto` of `src/dto/transaction.dto.ts` (payload fields). -/
structure WithdrawDto where
  amount : ℚ
  description : Option String
deriving DecidableEq, Repr

/-- The `TransferDto` of `src/dto/transaction.dto.ts` (payload fields). -/
structure TransferDto where
  recipientEmail : String
  amount : ℚ
  description : Option String
deriving DecidableEq, Repr

/-- The amount validation of `src/dto/transaction.dto.ts`, identical on
all three DTOs: `@IsNumber({maxDecimalPlaces: 2})` (at most two decimal
places, i.e. `100 * amount` is an integer), `@IsPositive`, `@Min(0.01)`
and `@Max(1000000)`.  It is enforced before the service runs by the
global `ValidationPipe` (`APP_PIPE` in `app.module.ts`). -/
def validAmount (a : ℚ) : Bool :=
  decide (0 < a) && decide ((1 : ℚ)/100 ≤ a) &&
  decide (a ≤ 1000000) && decide ((a * 100).den = 1)

/-- Errors thrown by `TransactionService` (each a `NotFoundException`
or `BadRequestException` in the source), plus the rejection produced by
the `ValidationPipe` before the service is entered. -/
inductive Err
  | userNotFound
  | recipientNotFound
  | senderNotFound
  | selfTransfer
  | insufficientFunds
  | invalidAmount
deriving DecidableEq, Repr

/-- Observable actions performed while a service operation runs:
pessimistic row locks, audit-service calls, email dispatch, and the
commit of the surrounding `dataSource.transaction`. -/
inductive Event
  | lockUser (id : String)
  | auditBalanceChange (userId : String) (oldBalance newBalance : ℚ)
      (reason : String)
  | auditTransaction (userId : String) (txId : Nat) (kind : String)
      (amount : ℚ)
  | emailSend (dest kind : String) (amount resultingBalance : ℚ)
  | commit
deriving DecidableEq, Repr

/-- The durable store: users, the append-only `transactions` and
`balances` tables (kept in `createdAt` order), and the id/`createdAt`
generator. -/
structure LedgerState where
  users : List User
  transactions : List Transaction
  balances : List Balance
  nextId : Nat
deriving DecidableEq, Repr

/-- Result of one service call: what the caller sees, the state after
the storage transaction ended (rolled back to the input state whenever
the operation threw), and the trace of observable events. -/
structure Outcome where
  result : Except Err Transaction
  state : LedgerState
  trace : List Event
deriving Repr

/-- Lookup `manager.findOne(User, { where: { id } })`. -/
def findUserById (s : LedgerState) (userId : String) : Option User :=
  s.users.find? (fun u => u.id = userId)

/-- Lookup `manager.findOne(User, { where: { email } })`. -/
def findUserByEmail (s : LedgerState) (email : String) : Option User :=
  s.users.find? (fun u => u.email = email)

/-- Lookup `manager.findOne(Balance, { where: { userId }, order: { createdAt:
'DESC' } })` followed by `latest ? Number(latest.balanceAfter) : 0`:
the `balanceAfter` of the account's most recent balance row, or 0. -/
def latestBalance (s : LedgerState) (userId : String) : ℚ :=
  match (s.balances.filter (fun b => b.userId = userId)).getLast? with
  | some b => b.balanceAfter
  | none => 0

/-- Embedding of `TransactionService.deposit` (transaction.service.ts:32-92).  The
`emailFails` flag models whether the fire-and-forget confirmation email
rejects; the `.catch` in the source swallows that rejection. -/
def deposit (s : LedgerState) (userId : String) (dto : DepositDto)
    (emailFails : Bool) : Outcome :=
  match findUserById s userId with
  | none => ⟨.error .userNotFound, s, []⟩
  | some user =>
    let b0 := latestBalance s userId
    let b1 := b0 + dto.amount
    let descr := dto.description.getD "Deposit"
    let txInput : TransactionCreateInput :=
      { userId := userId, type := .deposit, amount := dto.amount
        status := .completed, description := descr
        balanceBefore := some b0, balanceAfter := some b1 }
    let tx := createTransaction txInput s.nextId s.nextId
    let bal : Balance :=
      { id := s.nextId + 1, userId := userId, transactionId := some tx.id
        balanceBefore := b0, balanceAfter := b1
        description := some descr, createdAt := s.nextId + 1 }
    let _ := emailFails
    ⟨.ok tx,
     { s with transactions := s.transactions ++ [tx]
              balances := s.balances ++ [bal]
              nextId := s.nextId + 2 },
     [.lockUser userId,
      .auditBalanceChange userId b0 b1 "Deposit",
      .auditTransaction userId tx.id "DEPOSIT" dto.amount,
      .emailSend user.email "Deposit" dto.amount b1,
      .commit]⟩

/-- Embedding of `TransactionService.withdraw` (transaction.service.ts:94-161). -/
def withdraw (s : LedgerState) (userId : String) (dto : WithdrawDto)
    (emailFails : Bool) : Outcome :=
  match findUserById s userId with
  | none => ⟨.error .userNotFound, s, []⟩
  | some user =>
    let b0 := latestBalance s userId
    if b0 < dto.amount then
      ⟨.error .insufficientFunds, s, [.lockUser userId]⟩
    else
      let b1 := b0 - dto.amount
      let descr := dto.description.getD "Withdrawal"
      let txInput : TransactionCreateInput :=
        { userId := userId, type := .withdrawal, amount := dto.amount
          status := .completed, description := descr
          balanceBefore := some b0, balanceAfter := some b1 }
      let tx := createTransaction txInput s.nextId s.nextId
      let bal : Balance :=
        { id := s.nextId + 1, userId := userId, transactionId := some tx.id
          balanceBefore := b0, balanceAfter := b1
          description := some descr, createdAt := s.nextId + 1 }
      let _ := emailFails
      ⟨.ok tx,
       { s with transactions := s.transactions ++ [tx]
                balances := s.balances ++ [bal]
                nextId := s.nextId + 2 },
       [.lockUser userId,
        .auditBalanceChange userId b0 b1 "Withdrawal",
        .auditTransaction userId tx.id "WITHDRAWAL" dto.amount,
        .emailSend user.email "Withdrawal" dto.amount b1,
        .commit]⟩

/-- Embedding of `TransactionService.transfer` (transaction.service.ts:163-298).
The source resolves the recipient by email (no lock), rejects self
transfers, then locks the sender row and the recipient row in exactly
that order, reads both latest balances, checks funds, and appends the
sender leg followed by the recipient leg inside one storage
transaction; audit calls and the two emails are issued before the
callback returns (hence before commit). -/
def transfer (s : LedgerState) (userId : String) (dto : TransferDto)
    (emailFails : Bool) : Outcome :=
  match findUserByEmail s dto.recipientEmail with
  | none => ⟨.error .recipientNotFound, s, []⟩
  | some recipient =>
    if recipient.id = userId then
      ⟨.error .selfTransfer, s, []⟩
    else
      match findUserById s userId with
      | none => ⟨.error .senderNotFound, s, []⟩
      | some sender =>
        match findUserById s recipient.id with
        | none => ⟨.error .recipientNotFound, s, [.lockUser userId]⟩
        | some _ =>
          let x := dto.amount
          let sb0 := latestBalance s userId
          let rb0 := latestBalance s recipient.id
          if sb0 < x then
            ⟨.error .insufficientFunds, s,
             [.lockUser userId, .lockUser recipient.id]⟩
          else
            let sb1 := sb0 - x
            let rb1 := rb0 + x
            let sDescr := dto.description.getD
              ("Transfer to " ++ dto.recipientEmail)
            let rDescr := dto.description.getD
              ("Transfer from " ++ sender.email)
            let sInput : TransactionCreateInput :=
              { userId := userId, type := .transfer, amount := x
                status := .completed, description := sDescr
                recipientUserId := some recipient.id
                balanceBefore := some sb0, balanceAfter := some sb1 }
            let tx1 := createTransaction sInput s.nextId s.nextId
            let bal1 : Balance :=
              { id := s.nextId + 1, userId := userId
                transactionId := some tx1.id
                balanceBefore := sb0, balanceAfter := sb1
                description := some sDescr, createdAt := s.nextId + 1 }
            let rInput : TransactionCreateInput :=
              { userId := recipient.id, type := .transfer, amount := x
                status := .completed, description := rDescr
                recipientUserId := some userId
                balanceBefore := some rb0, balanceAfter := some rb1 }
            let tx2 := createTransaction rInput (s.nextId + 2) (s.nextId + 2)
            let bal2 : Balance :=
              { id := s.nextId + 3, userId := recipient.id
                transactionId := some tx2.id
                balanceBefore := rb0, balanceAfter := rb1
                description := some rDescr, createdAt := s.nextId + 3 }
            let _ := emailFails
            ⟨.ok tx1,
             { s with transactions := s.transactions ++ [tx1, tx2]
                      balances := s.balances ++ [bal1, bal2]
                      nextId := s.nextId + 4 },
             [.lockUser userId, .lockUser recipient.id,
              .auditBalanceChange userId sb0 sb1 "Transfer",
              .auditTransaction userId tx1.id "TRANSFER" x,
              .emailSend sender.email "Transfer" x sb1,
              .emailSend recipient.email "Transfer Received" x rb1,
              .commit]⟩

/-- Deposit as reached through the HTTP pipeline: the global
`ValidationPipe` validates the DTO before the service runs and rejects
invalid amounts with a 400, touching neither locks nor the store. -/
def depositChecked (s : LedgerState) (userId : String) (dto : DepositDto)
    (emailFails : Bool) : Outcome :=
  if validAmount dto.amount then deposit s userId dto emailFails
  else ⟨.error .invalidAmount, s, []⟩

/-- Withdraw as reached through the HTTP pipeline (validation first). -/
def withdrawChecked (s : LedgerState) (userId : String) (dto : WithdrawDto)
    (emailFails : Bool) : Outcome :=
  if validAmount dto.amount then withdraw s userId dto emailFails
  else ⟨.error .invalidAmount, s, []⟩

/-- Transfer as reached through the HTTP pipeline (validation first). -/
def transferChecked (s : LedgerState) (userId : String) (dto : TransferDto)
    (emailFails : Bool) : Outcome :=
  if validAmount dto.amount then transfer s userId dto emailFails
  else ⟨.error .invalidAmount, s, []⟩

/-- Result shape of `TransactionService.getTransactions`. -/
structure TransactionPage where
  transactions : List Transaction
  total : Nat
  page : Nat
  limit : Nat
deriving DecidableEq, Repr

/-- Row filter of the query built in `getTransactions`: `userId`
equality, plus the optional `type` filter. -/
def txMatches (userId : String) (ty : Option TransactionType)
    (t : Transaction) : Bool :=
  t.userId = userId && (match ty with
    | some ty => t.type = ty
    | none => true)

/-- Embedding of `TransactionService.getTransactions`
(transaction.service.ts:300-327): filters by `userId` (and optional
type), orders by `createdAt` descending, applies
`skip((page-1)*limit).take(limit)`, and returns the rows with the total
matching count and the given `page` and `limit`.  No user-existence
check is performed and no error path exists. -/
def getTransactions (s : LedgerState) (userId : String)
    (page limit : Nat) (ty : Option TransactionType) : TransactionPage :=
  let matching := s.transactions.filter (txMatches userId ty)
  let ordered := matching.reverse
  { transactions := (ordered.drop ((page - 1) * limit)).take limit
    total := matching.length
    page := page
    limit := limit }

/-- Is an event a lock acquisition? -/
def Event.isLock : Event → Bool
  | .lockUser _ => true
  | _ => false

/-- Is an event an audit-sink or notification (email) call? -/
def Event.isSideEffect : Event → Bool
  | .auditBalanceChange .. => true
  | .auditTransaction .. => true
  | .emailSend .. => true
  | _ => false


/-- One single-account call through the HTTP pipeline: a deposit or a
withdrawal with its DTO. -/
inductive AccountOp
  | dep (dto : DepositDto)
  | wd (dto : WithdrawDto)
deriving DecidableEq, Repr

/-- Dispatch one single-account operation (validation included). -/
def applyOp (s : LedgerState) (userId : String) : AccountOp → Outcome
  | .dep dto => depositChecked s userId dto false
  | .wd dto => withdrawChecked s userId dto false

/-- Signed-amount accounting of one operation: the accumulator gains
the amount of an accepted deposit, loses the amount of an accepted
withdrawal, and is unchanged by a rejected operation. -/
def stepAcc (op : AccountOp) (res : Except Err Transaction) (acc : ℚ) :
    ℚ :=
  match res with
  | .ok _ =>
    match op with
    | .dep dto => acc + dto.amount
    | .wd dto => acc - dto.amount
  | .error _ => acc

/-- Run a sequence of deposits/withdrawals on one account, threading
the ledger state and the signed sum of the accepted operations. -/
def runOps (userId : String) :
    LedgerState × ℚ → List AccountOp → LedgerState × ℚ
  | p, [] => p
  | p, op :: rest =>
    runOps userId
      ((applyOp p.1 userId op).state,
        stepAcc op (applyOp p.1 userId op).result p.2) rest

/-- Concrete users and states used by the closed witness and
counterexample theorems below. -/
def userA : User := ⟨"a", "a@x.com"⟩

/-- Second concrete user. -/
def userB : User := ⟨"b", "b@x.com"⟩

/-- A fresh two-user ledger with no entries. -/
def emptyLedger : LedgerState := ⟨[userA, userB], [], [], 0⟩

/-- The one-user initial state of the single-account conservation
property: a fresh ledger whose only rows are the user itself. -/
def singleUserInit (u : User) : LedgerState := ⟨[u], [], [], 0⟩

/-- A ledger in which user `b` holds balance 100 (one prior balance
row) and user `a` holds balance 0. -/
def fundedB : LedgerState :=
  ⟨[userA, userB], [], [⟨0, "b", none, 0, 100, none, 0⟩], 1⟩

/-- A ledger in which user `a` holds balance 100. -/
def fundedA : LedgerState :=
  ⟨[userA, userB], [], [⟨0, "a", none, 0, 100, none, 0⟩], 1⟩

/-- Appending one balance row moves the latest balance of its owner to
the row's `balanceAfter` and leaves every other account's latest
balance unchanged. -/
theorem latestBalance_append (s s' : LedgerState) (b : Balance)
    (uid : String) (h : s'.balances = s.balances ++ [b]) :
    latestBalance s' uid =
      if b.userId = uid then b.balanceAfter else latestBalance s uid := by
  unfold latestBalance
  rw [h, List.filter_append]
  by_cases hb : b.userId = uid
  · simp [hb]
  · simp [hb]

/-- C10: `getTransactions` never fails with NotFound — it performs no
account-existence check (its result does not depend on the `users`
table at all), and for an account with no matching transactions it
returns an empty transaction list with total 0, echoing the given
`page` and `limit` unchanged. -/
theorem getTransactions_no_account_check (s : LedgerState) (uid : String)
    (page limit : Nat) (ty : Option TransactionType) :
    (∀ us : List User,
      getTransactions { s with users := us } uid page limit ty =
        getTransactions s uid page limit ty) ∧
    (getTransactions s uid page limit ty).page = page ∧
    (getTransactions s uid page limit ty).limit = limit ∧
    (s.transactions.filter (txMatches uid ty) = [] →
      (getTransactions s uid page limit ty).transactions = [] ∧
      (getTransactions s uid page limit ty).total = 0) := by
  refine ⟨fun us => rfl, rfl, rfl, fun h => ?_⟩
  constructor
  · simp [getTransactions, h]
  · simp [getTransactions, h]

/-- Witness for C10: a user id resolving to no account, on a store with
no transactions, with page 3 and limit 7. -/
theorem getTransactions_no_account_check_witness :
    emptyLedger.transactions.filter (txMatches "zzz" none) = [] ∧
    (getTransactions emptyLedger "zzz" 3 7 none).transactions = [] ∧
    (getTransactions emptyLedger "zzz" 3 7 none).total = 0 ∧
    (getTransactions emptyLedger "zzz" 3 7 none).page = 3 ∧
    (getTransactions emptyLedger "zzz" 3 7 none).limit = 7 := by
  have h := getTransactions_no_account_check emptyLedger "zzz" 3 7 none
  have hf : emptyLedger.transactions.filter (txMatches "zzz" none) = [] := by decide
  exact ⟨hf, (h.2.2.2 hf).1, (h.2.2.2 hf).2, h.2.1, h.2.2.1⟩

/-- The validation predicate unfolded to a proposition. -/
theorem validAmount_iff (a : ℚ) :
    validAmount a = true ↔
      (0 < a ∧ (1 : ℚ)/100 ≤ a ∧ a ≤ 1000000 ∧ (a * 100).den = 1) := by
  simp [validAmount, and_assoc]

/-- C9: an amount that is non-positive, has more than 2 decimal places
(`100 * amount` is not an integer), or exceeds the configured maximum
of 1,000,000 is rejected by the validation layer with `InvalidAmount`
before the service runs: the result is the error, the state is
untouched and the trace is empty (no lock was acquired), for all three
operations. -/
theorem invalid_amount_rejected (s : LedgerState) (uid : String) (a : ℚ)
    (descr : Option String) (rcptEmail : String) (f : Bool)
    (h : a ≤ 0 ∨ (a * 100).den ≠ 1 ∨ 1000000 < a) :
    depositChecked s uid ⟨a, descr⟩ f = ⟨.error .invalidAmount, s, []⟩ ∧
    withdrawChecked s uid ⟨a, descr⟩ f = ⟨.error .invalidAmount, s, []⟩ ∧
    transferChecked s uid ⟨rcptEmail, a, descr⟩ f =
      ⟨.error .invalidAmount, s, []⟩ := by
  have hv : validAmount a = false := by
    cases hva : validAmount a with
    | false => rfl
    | true =>
      rcases (validAmount_iff a).mp hva with ⟨h1, _, h3, h4⟩
      rcases h with h | h | h
      · exact absurd h (not_le.mpr h1)
      · exact absurd h4 h
      · exact absurd h3 (not_le.mpr h)
  exact ⟨by simp [depositChecked, hv], by simp [withdrawChecked, hv],
         by simp [transferChecked, hv]⟩

/-- Witness for C9: amount −5 is non-positive and is rejected on all
three operations with nothing written and no lock taken. -/
theorem invalid_amount_rejected_witness :
    depositChecked emptyLedger "a" ⟨-5, none⟩ false =
      ⟨.error .invalidAmount, emptyLedger, []⟩ ∧
    withdrawChecked emptyLedger "a" ⟨-5, none⟩ false =
      ⟨.error .invalidAmount, emptyLedger, []⟩ ∧
    transferChecked emptyLedger "a" ⟨"b@x.com", -5, none⟩ false =
      ⟨.error .invalidAmount, emptyLedger, []⟩ :=
  invalid_amount_rejected emptyLedger "a" (-5) none "b@x.com" false
    (Or.inl (by norm_num))

/-- C8: a transfer whose recipient email resolves to no account fails
with `RecipientNotFound`, and one whose recipient resolves to the
sender itself fails with `SelfTransferRejected`; in both cases the
trace is empty — in particular no lock event occurred — and the state
is exactly the input state (nothing written, all balances unchanged). -/
theorem transfer_reject_before_lock (s : LedgerState) (uid : String)
    (dto : TransferDto) (f : Bool) :
    (findUserByEmail s dto.recipientEmail = none →
      (transfer s uid dto f).result = .error .recipientNotFound ∧
      (transfer s uid dto f).state = s ∧
      (transfer s uid dto f).trace = []) ∧
    (∀ r : User, findUserByEmail s dto.recipientEmail = some r →
      r.id = uid →
      (transfer s uid dto f).result = .error .selfTransfer ∧
      (transfer s uid dto f).state = s ∧
      (transfer s uid dto f).trace = []) := by
  constructor
  · intro h
    refine ⟨?_, ?_, ?_⟩ <;> simp [transfer, h]
  · intro r hr hid
    refine ⟨?_, ?_, ?_⟩ <;> simp [transfer, hr, hid]

/-- Witness for C8: `transfer(a, a@x.com, 10)` (self transfer) and
`transfer(a, unknown@x.com, 10)` (unresolved recipient) both fail with
an empty trace and the funded state intact. -/
theorem transfer_reject_before_lock_witness :
    findUserByEmail fundedA "unknown@x.com" = none ∧
    (transfer fundedA "a" ⟨"unknown@x.com", 10, none⟩ false).result =
      .error .recipientNotFound ∧
    (transfer fundedA "a" ⟨"unknown@x.com", 10, none⟩ false).state =
      fundedA ∧
    (transfer fundedA "a" ⟨"unknown@x.com", 10, none⟩ false).trace = [] ∧
    findUserByEmail fundedA "a@x.com" = some userA ∧
    (transfer fundedA "a" ⟨"a@x.com", 10, none⟩ false).result =
      .error .selfTransfer ∧
    (transfer fundedA "a" ⟨"a@x.com", 10, none⟩ false).state = fundedA ∧
    (transfer fundedA "a" ⟨"a@x.com", 10, none⟩ false).trace = [] := by
  have h1 : findUserByEmail fundedA "unknown@x.com" = none := by decide
  have h2 : findUserByEmail fundedA "a@x.com" = some userA := by decide
  have p := (transfer_reject_before_lock fundedA "a"
    ⟨"unknown@x.com", 10, none⟩ false).1 h1
  have q := (transfer_reject_before_lock fundedA "a"
    ⟨"a@x.com", 10, none⟩ false).2 userA h2 rfl
  exact ⟨h1, p.1, p.2.1, p.2.2, h2, q.1, q.2.1, q.2.2⟩

/-- C5: with the account's latest balance `b0`, a withdrawal of an
amount with `b0 - amount < 0` fails with `InsufficientFunds` and writes
nothing (the state is exactly the input state, so the balance is
unchanged); otherwise exactly one WITHDRAWAL transaction/balance pair
is appended, the pair carrying `balanceBefore = b0` and
`balanceAfter = b0 - amount`, and the account's latest balance becomes
`b0 - amount`. -/
theorem withdraw_spec (s : LedgerState) (uid : String) (dto : WithdrawDto)
    (f : Bool) (u : User) (hu : findUserById s uid = some u) :
    (latestBalance s uid - dto.amount < 0 →
      (withdraw s uid dto f).result = .error .insufficientFunds ∧
      (withdraw s uid dto f).state = s) ∧
    (0 ≤ latestBalance s uid - dto.amount →
      ∃ tx bal,
        (withdraw s uid dto f).result = .ok tx ∧
        (withdraw s uid dto f).state.transactions =
          s.transactions ++ [tx] ∧
        (withdraw s uid dto f).state.balances = s.balances ++ [bal] ∧
        tx.type = TransactionType.withdrawal ∧
        tx.status = TransactionStatus.completed ∧
        tx.amount = dto.amount ∧
        tx.balanceAfter = some (latestBalance s uid - dto.amount) ∧
        bal.userId = uid ∧
        bal.balanceBefore = latestBalance s uid ∧
        bal.balanceAfter = latestBalance s uid - dto.amount ∧
        bal.transactionId = some tx.id ∧
        latestBalance (withdraw s uid dto f).state uid =
          latestBalance s uid - dto.amount) := by
  constructor
  · intro h
    rw [sub_neg] at h
    exact ⟨by simp [withdraw, hu, h], by simp [withdraw, hu, h]⟩
  · intro h
    have h' : ¬ latestBalance s uid < dto.amount :=
      not_lt.mpr (by linarith [sub_nonneg.mp h])
    refine ⟨createTransaction
        { userId := uid, type := .withdrawal, amount := dto.amount,
          status := .completed,
          description := dto.description.getD "Withdrawal",
          balanceBefore := some (latestBalance s uid),
          balanceAfter := some (latestBalance s uid - dto.amount) }
        s.nextId s.nextId,
      ⟨s.nextId + 1, uid, some s.nextId, latestBalance s uid,
        latestBalance s uid - dto.amount,
        some (dto.description.getD "Withdrawal"), s.nextId + 1⟩,
      ?_, ?_, ?_, ?_, ?_, ?_, ?_, ?_, ?_, ?_, ?_, ?_⟩
    · simp [withdraw, hu, h', createTransaction]
    · simp [withdraw, hu, h', createTransaction]
    · simp [withdraw, hu, h', createTransaction]
    · rfl
    · rfl
    · rfl
    · rfl
    · rfl
    · rfl
    · rfl
    · rfl
    · rw [latestBalance_append s ((withdraw s uid dto f).state)
        ⟨s.nextId + 1, uid, some s.nextId, latestBalance s uid,
          latestBalance s uid - dto.amount,
          some (dto.description.getD "Withdrawal"), s.nextId + 1⟩ uid
        (by simp [withdraw, hu, h', createTransaction])]
      simp

/-- Witness for C5: account `a` holds 100; `withdraw(a, 150)` fails
with `InsufficientFunds` and leaves the state untouched, while
`withdraw(a, 40)` appends one pair with `balanceBefore = 100` and
`balanceAfter = 60`. -/
theorem withdraw_spec_witness :
    ((withdraw fundedA "a" ⟨150, none⟩ false).result =
        .error .insufficientFunds ∧
      (withdraw fundedA "a" ⟨150, none⟩ false).state = fundedA) ∧
    (∃ tx bal,
      (withdraw fundedA "a" ⟨40, none⟩ false).result = .ok tx ∧
      (withdraw fundedA "a" ⟨40, none⟩ false).state.transactions =
        fundedA.transactions ++ [tx] ∧
      (withdraw fundedA "a" ⟨40, none⟩ false).state.balances =
        fundedA.balances ++ [bal] ∧
      tx.type = TransactionType.withdrawal ∧
      tx.status = TransactionStatus.completed ∧
      tx.amount = 40 ∧
      tx.balanceAfter = some (latestBalance fundedA "a" - 40) ∧
      bal.userId = "a" ∧
      bal.balanceBefore = latestBalance fundedA "a" ∧
      bal.balanceAfter = latestBalance fundedA "a" - 40 ∧
      bal.transactionId = some tx.id ∧
      latestBalance (withdraw fundedA "a" ⟨40, none⟩ false).state "a" =
        latestBalance fundedA "a" - 40) := by
  constructor
  · exact (withdraw_spec fundedA "a" ⟨150, none⟩ false userA (by decide)).1
      (by norm_num [latestBalance, fundedA])
  · exact (withdraw_spec fundedA "a" ⟨40, none⟩ false userA (by decide)).2
      (by norm_num [latestBalance, fundedA])

/-- C7 (code bug): on a successful deposit the service builds the
transaction object with `balanceBefore = b0` and `balanceAfter = b0 +
amount` (`transaction.service.ts:56-64`), but the `transactions` entity
declares no `balanceBefore` column, so the persisted record keeps only
`balanceAfter`: here, `deposit(a, 50)` at prior balance 100 returns the
COMPLETED DEPOSIT transaction persisted from an input carrying
`balanceBefore = 100`, the entity's column list has `balanceAfter` but
no `balanceBefore`, and only the balances table records
`balanceBefore = 100`. -/
theorem deposit_balanceBefore_not_persisted :
    (deposit fundedA "a" ⟨50, none⟩ false).result =
      .ok (createTransaction
        { userId := "a", type := .deposit, amount := 50,
          status := .completed, description := "Deposit",
          recipientUserId := none, balanceBefore := some 100,
          balanceAfter := some 150 } 1 1) ∧
    "balanceBefore" ∉ transactionEntityColumns ∧
    "balanceAfter" ∈ transactionEntityColumns ∧
    (deposit fundedA "a" ⟨50, none⟩ false).state.balances.getLast? =
      some ⟨2, "a", some 1, 100, 150, some "Deposit", 2⟩ := by
  refine ⟨?_, by decide, by decide, ?_⟩
  · norm_num [deposit, fundedA, userA, userB, findUserById, latestBalance,
      createTransaction]
  · norm_num [deposit, fundedA, userA, userB, findUserById, latestBalance,
      createTransaction]

/-- A user found by email is present in the users table, so looking
its id up again (as the transfer lock step does) succeeds. -/
theorem findById_of_findByEmail (s : LedgerState) (e : String) (r : User)
    (hr : findUserByEmail s e = some r) :
    ∃ w, findUserById s r.id = some w := by
  rcases h : findUserById s r.id with _ | w
  · exfalso
    have hmem : r ∈ s.users := List.mem_of_find?_eq_some hr
    have := List.find?_eq_none.mp h r hmem
    simp at this
  · exact ⟨w, rfl⟩

/-- C1: every transfer attempt either succeeds and appends exactly two
transaction rows and two balance rows — the sender leg (`userId` is the
caller) and the recipient leg (`recipientUserId` points back at the
caller), both recording the transferred amount — or fails and leaves
the state exactly as it was; persisting a single leg is impossible. -/
theorem transfer_atomicity (s : LedgerState) (uid : String)
    (dto : TransferDto) (f : Bool) :
    (∃ t1 t2 b1 b2,
      (transfer s uid dto f).result = .ok t1 ∧
      (transfer s uid dto f).state.transactions =
        s.transactions ++ [t1, t2] ∧
      (transfer s uid dto f).state.balances = s.balances ++ [b1, b2] ∧
      t1.amount = dto.amount ∧ t2.amount = dto.amount ∧
      t1.userId = uid ∧ t2.recipientUserId = some uid ∧
      b1.balanceBefore - b1.balanceAfter = dto.amount ∧
      b2.balanceAfter - b2.balanceBefore = dto.amount) ∨
    (∃ e, (transfer s uid dto f).result = .error e ∧
      (transfer s uid dto f).state = s) := by
  rcases hr : findUserByEmail s dto.recipientEmail with _ | r
  · exact .inr ⟨.recipientNotFound, by simp [transfer, hr],
      by simp [transfer, hr]⟩
  · by_cases hid : r.id = uid
    · exact .inr ⟨.selfTransfer, by simp [transfer, hr, hid],
        by simp [transfer, hr, hid]⟩
    · rcases hs : findUserById s uid with _ | snd
      · exact .inr ⟨.senderNotFound, by simp [transfer, hr, hid, hs],
          by simp [transfer, hr, hid, hs]⟩
      · rcases hrl : findUserById s r.id with _ | rl
        · exact .inr ⟨.recipientNotFound,
            by simp [transfer, hr, hid, hs, hrl],
            by simp [transfer, hr, hid, hs, hrl]⟩
        · by_cases hf : latestBalance s uid < dto.amount
          · exact .inr ⟨.insufficientFunds,
              by simp [transfer, hr, hid, hs, hrl, hf],
              by simp [transfer, hr, hid, hs, hrl, hf]⟩
          · left
            refine ⟨createTransaction
                { userId := uid, type := .transfer, amount := dto.amount,
                  status := .completed,
                  description := dto.description.getD
                    ("Transfer to " ++ dto.recipientEmail),
                  recipientUserId := some r.id,
                  balanceBefore := some (latestBalance s uid),
                  balanceAfter :=
                    some (latestBalance s uid - dto.amount) }
                s.nextId s.nextId,
              createTransaction
                { userId := r.id, type := .transfer, amount := dto.amount,
                  status := .completed,
                  description := dto.description.getD
                    ("Transfer from " ++ snd.email),
                  recipientUserId := some uid,
                  balanceBefore := some (latestBalance s r.id),
                  balanceAfter :=
                    some (latestBalance s r.id + dto.amount) }
                (s.nextId + 2) (s.nextId + 2),
              ⟨s.nextId + 1, uid, some s.nextId, latestBalance s uid,
                latestBalance s uid - dto.amount,
                some (dto.description.getD
                  ("Transfer to " ++ dto.recipientEmail)), s.nextId + 1⟩,
              ⟨s.nextId + 3, r.id, some (s.nextId + 2),
                latestBalance s r.id,
                latestBalance s r.id + dto.amount,
                some (dto.description.getD
                  ("Transfer from " ++ snd.email)), s.nextId + 3⟩,
              ?_, ?_, ?_, ?_, ?_, ?_, ?_, ?_, ?_⟩
            · simp [transfer, hr, hid, hs, hrl, hf, createTransaction]
            · simp [transfer, hr, hid, hs, hrl, hf, createTransaction]
            · simp [transfer, hr, hid, hs, hrl, hf, createTransaction]
            · rfl
            · rfl
            · rfl
            · rfl
            · show latestBalance s uid -
                (latestBalance s uid - dto.amount) = dto.amount
              ring
            · show (latestBalance s r.id + dto.amount) -
                latestBalance s r.id = dto.amount
              ring

/-- C6: a successful transfer of `x` from the caller (balance `a`) to
the recipient (balance `b`) leaves the caller's latest balance at
`a - x` and the recipient's at `b + x`, so the sum is conserved; the
two appended transaction rows cross-reference each other through
`recipientUserId` and both have status COMPLETED. -/
theorem transfer_balances_spec (s : LedgerState) (uid : String)
    (dto : TransferDto) (f : Bool) (r : User)
    (hr : findUserByEmail s dto.recipientEmail = some r)
    (hid : r.id ≠ uid) (snd : User) (hs : findUserById s uid = some snd)
    (hfunds : dto.amount ≤ latestBalance s uid) :
    ∃ t1 t2,
      (transfer s uid dto f).result = .ok t1 ∧
      (transfer s uid dto f).state.transactions =
        s.transactions ++ [t1, t2] ∧
      latestBalance (transfer s uid dto f).state uid =
        latestBalance s uid - dto.amount ∧
      latestBalance (transfer s uid dto f).state r.id =
        latestBalance s r.id + dto.amount ∧
      latestBalance (transfer s uid dto f).state uid +
          latestBalance (transfer s uid dto f).state r.id =
        latestBalance s uid + latestBalance s r.id ∧
      t1.userId = uid ∧ t1.recipientUserId = some r.id ∧
      t2.userId = r.id ∧ t2.recipientUserId = some uid ∧
      t1.status = TransactionStatus.completed ∧
      t2.status = TransactionStatus.completed := by
  obtain ⟨w, hw⟩ := findById_of_findByEmail s dto.recipientEmail r hr
  have hf : ¬ latestBalance s uid < dto.amount := not_lt.mpr hfunds
  have h2 : (transfer s uid dto f).state.balances =
      ({ s with balances := s.balances ++
          [⟨s.nextId + 1, uid, some s.nextId, latestBalance s uid,
            latestBalance s uid - dto.amount,
            some (dto.description.getD
              ("Transfer to " ++ dto.recipientEmail)), s.nextId + 1⟩] } :
        LedgerState).balances ++
      [⟨s.nextId + 3, r.id, some (s.nextId + 2), latestBalance s r.id,
        latestBalance s r.id + dto.amount,
        some (dto.description.getD ("Transfer from " ++ snd.email)),
        s.nextId + 3⟩] := by
    simp [transfer, hr, hid, hs, hw, hf, createTransaction]
  have hLuid : latestBalance (transfer s uid dto f).state uid =
      latestBalance s uid - dto.amount := by
    rw [latestBalance_append _ _ _ uid h2]
    simp only [hid, if_false]
    rw [latestBalance_append s _ _ uid rfl]
    simp
  have hLrid : latestBalance (transfer s uid dto f).state r.id =
      latestBalance s r.id + dto.amount := by
    rw [latestBalance_append _ _ _ r.id h2]
    simp
  refine ⟨createTransaction
      { userId := uid, type := .transfer, amount := dto.amount,
        status := .completed,
        description := dto.description.getD
          ("Transfer to " ++ dto.recipientEmail),
        recipientUserId := some r.id,
        balanceBefore := some (latestBalance s uid),
        balanceAfter := some (latestBalance s uid - dto.amount) }
      s.nextId s.nextId,
    createTransaction
      { userId := r.id, type := .transfer, amount := dto.amount,
        status := .completed,
        description := dto.description.getD
          ("Transfer from " ++ snd.email),
        recipientUserId := some uid,
        balanceBefore := some (latestBalance s r.id),
        balanceAfter := some (latestBalance s r.id + dto.amount) }
      (s.nextId + 2) (s.nextId + 2),
    ?_, ?_, hLuid, hLrid, by rw [hLuid, hLrid]; ring,
    rfl, rfl, rfl, rfl, rfl, rfl⟩
  · simp [transfer, hr, hid, hs, hw, hf, createTransaction]
  · simp [transfer, hr, hid, hs, hw, hf, createTransaction]

/-- Witness for C6: `a` holds 0, `b` holds 100; `transfer(b, a@x.com,
40)` succeeds, leaving `b` at 60 and `a` at 40 with the sum conserved
and both COMPLETED rows cross-referencing each other. -/
theorem transfer_balances_spec_witness :
    findUserByEmail fundedB "a@x.com" = some userA ∧
    userA.id ≠ "b" ∧
    findUserById fundedB "b" = some userB ∧
    (40 : ℚ) ≤ latestBalance fundedB "b" ∧
    ∃ t1 t2,
      (transfer fundedB "b" ⟨"a@x.com", 40, none⟩ false).result = .ok t1 ∧
      (transfer fundedB "b" ⟨"a@x.com", 40, none⟩ false).state.transactions =
        fundedB.transactions ++ [t1, t2] ∧
      latestBalance (transfer fundedB "b" ⟨"a@x.com", 40, none⟩ false).state
          "b" = latestBalance fundedB "b" - 40 ∧
      latestBalance (transfer fundedB "b" ⟨"a@x.com", 40, none⟩ false).state
          userA.id = latestBalance fundedB userA.id + 40 ∧
      latestBalance (transfer fundedB "b" ⟨"a@x.com", 40, none⟩ false).state
            "b" +
          latestBalance (transfer fundedB "b" ⟨"a@x.com", 40, none⟩
            false).state userA.id =
        latestBalance fundedB "b" + latestBalance fundedB userA.id ∧
      t1.userId = "b" ∧ t1.recipientUserId = some userA.id ∧
      t2.userId = userA.id ∧ t2.recipientUserId = some "b" ∧
      t1.status = TransactionStatus.completed ∧
      t2.status = TransactionStatus.completed := by
  have h1 : findUserByEmail fundedB "a@x.com" = some userA := by decide
  have h2 : userA.id ≠ "b" := by decide
  have h3 : findUserById fundedB "b" = some userB := by decide
  have h4 : (40 : ℚ) ≤ latestBalance fundedB "b" := by
    norm_num [latestBalance, fundedB]
  exact ⟨h1, h2, h3, h4,
    transfer_balances_spec fundedB "b" ⟨"a@x.com", 40, none⟩ false userA
      h1 h2 userB h3 h4⟩

/-- C3 counterexample: the two lock acquisitions of `transfer` follow
the caller-supplied sender-then-recipient order, not a canonical order
of the identifiers: a transfer from `b` to `a` locks `b` first and then
`a`, while the opposite transfer over the same two accounts locks `a`
first — the acquisition order depends on which account is the sender,
which a canonical sorted order would forbid. -/
theorem transfer_lock_order_not_canonical :
    (transfer fundedB "b" ⟨"a@x.com", 40, none⟩ false).trace.filter
      Event.isLock = [Event.lockUser "b", Event.lockUser "a"] ∧
    (transfer fundedA "a" ⟨"b@x.com", 40, none⟩ false).trace.filter
      Event.isLock = [Event.lockUser "a", Event.lockUser "b"] ∧
    ([Event.lockUser "b", Event.lockUser "a"] ≠
      [Event.lockUser "a", Event.lockUser "b"]) := by
  refine ⟨by decide, by decide, by decide⟩

/-- C3 (amended): whenever `transfer` reaches the locking step (the
recipient email resolved, it is not the sender, and the sender row
exists), the two lock events occur in caller-supplied order — the
sender's row is always locked first and the recipient's second,
regardless of how the two identifiers compare. -/
theorem transfer_lock_order_caller_supplied (s : LedgerState)
    (uid : String) (dto : TransferDto) (f : Bool) (r : User)
    (hr : findUserByEmail s dto.recipientEmail = some r)
    (hid : r.id ≠ uid) (snd : User) (hs : findUserById s uid = some snd) :
    (transfer s uid dto f).trace.filter Event.isLock =
      [Event.lockUser uid, Event.lockUser r.id] := by
  obtain ⟨w, hw⟩ := findById_of_findByEmail s dto.recipientEmail r hr
  by_cases hf : latestBalance s uid < dto.amount
  · simp [transfer, hr, hid, hs, hw, hf, Event.isLock]
  · simp [transfer, hr, hid, hs, hw, hf, Event.isLock]

/-- Witness for the amended C3: the `b`-to-`a` transfer locks `b` then
`a`. -/
theorem transfer_lock_order_caller_supplied_witness :
    findUserByEmail fundedB "a@x.com" = some userA ∧
    userA.id ≠ "b" ∧
    findUserById fundedB "b" = some userB ∧
    (transfer fundedB "b" ⟨"a@x.com", 40, none⟩ false).trace.filter
      Event.isLock = [Event.lockUser "b", Event.lockUser userA.id] := by
  have h1 : findUserByEmail fundedB "a@x.com" = some userA := by decide
  have h2 : userA.id ≠ "b" := by decide
  have h3 : findUserById fundedB "b" = some userB := by decide
  exact ⟨h1, h2, h3, transfer_lock_order_caller_supplied fundedB "b"
    ⟨"a@x.com", 40, none⟩ false userA h1 h2 userB h3⟩

/-- C4 counterexample: in a successful deposit the audit calls and the
email dispatch are issued strictly before the commit of the storage
transaction, not after it — among the first four events of the trace
there are side-effect events, and the commit is the fifth and last. -/
theorem side_effects_not_after_commit :
    ((deposit fundedA "a" ⟨50, none⟩ false).trace.take 4).any
      Event.isSideEffect = true ∧
    (deposit fundedA "a" ⟨50, none⟩ false).trace[4]? =
      some Event.commit ∧
    (deposit fundedA "a" ⟨50, none⟩ false).trace.length = 5 := by decide

/-- C4 (amended): for every successful deposit, withdrawal and
transfer the audit and email calls are issued inside the open storage
transaction — the trace is a prefix containing the side-effect events
(and no commit) followed by the single final commit, so every audit and
notification call precedes the commit and happens while the row locks
are still held; and a failing email never alters the outcome: the
operation's result, state and trace are identical whether the
confirmation email fails or not (the source swallows the rejection with
`.catch`). -/
theorem side_effects_inside_transaction (s : LedgerState) (uid : String)
    (dtoD : DepositDto) (dtoW : WithdrawDto) (dtoT : TransferDto)
    (f : Bool) :
    (∀ t, (deposit s uid dtoD f).result = .ok t →
      ∃ pre, (deposit s uid dtoD f).trace = pre ++ [Event.commit] ∧
        pre.any Event.isSideEffect = true ∧ Event.commit ∉ pre) ∧
    (∀ t, (withdraw s uid dtoW f).result = .ok t →
      ∃ pre, (withdraw s uid dtoW f).trace = pre ++ [Event.commit] ∧
        pre.any Event.isSideEffect = true ∧ Event.commit ∉ pre) ∧
    (∀ t, (transfer s uid dtoT f).result = .ok t →
      ∃ pre, (transfer s uid dtoT f).trace = pre ++ [Event.commit] ∧
        pre.any Event.isSideEffect = true ∧ Event.commit ∉ pre) ∧
    deposit s uid dtoD true = deposit s uid dtoD false ∧
    withdraw s uid dtoW true = withdraw s uid dtoW false ∧
    transfer s uid dtoT true = transfer s uid dtoT false := by
  refine ⟨?_, ?_, ?_, rfl, rfl, rfl⟩
  · intro t ht
    rcases hu : findUserById s uid with _ | u
    · simp [deposit, hu] at ht
    · refine ⟨[Event.lockUser uid,
        Event.auditBalanceChange uid (latestBalance s uid)
          (latestBalance s uid + dtoD.amount) "Deposit",
        Event.auditTransaction uid s.nextId "DEPOSIT" dtoD.amount,
        Event.emailSend u.email "Deposit" dtoD.amount
          (latestBalance s uid + dtoD.amount)], ?_, ?_, ?_⟩
      · simp [deposit, hu, createTransaction]
      · simp [Event.isSideEffect]
      · simp
  · intro t ht
    rcases hu : findUserById s uid with _ | u
    · simp [withdraw, hu] at ht
    · by_cases hf2 : latestBalance s uid < dtoW.amount
      · simp [withdraw, hu, hf2] at ht
      · refine ⟨[Event.lockUser uid,
          Event.auditBalanceChange uid (latestBalance s uid)
            (latestBalance s uid - dtoW.amount) "Withdrawal",
          Event.auditTransaction uid s.nextId "WITHDRAWAL" dtoW.amount,
          Event.emailSend u.email "Withdrawal" dtoW.amount
            (latestBalance s uid - dtoW.amount)], ?_, ?_, ?_⟩
        · simp [withdraw, hu, hf2, createTransaction]
        · simp [Event.isSideEffect]
        · simp
  · intro t ht
    rcases hr : findUserByEmail s dtoT.recipientEmail with _ | r
    · simp [transfer, hr] at ht
    · by_cases hid : r.id = uid
      · simp [transfer, hr, hid] at ht
      · rcases hs : findUserById s uid with _ | snd
        · simp [transfer, hr, hid, hs] at ht
        · rcases hw : findUserById s r.id with _ | w
          · simp [transfer, hr, hid, hs, hw] at ht
          · by_cases hf2 : latestBalance s uid < dtoT.amount
            · simp [transfer, hr, hid, hs, hw, hf2] at ht
            · refine ⟨[Event.lockUser uid, Event.lockUser r.id,
                Event.auditBalanceChange uid (latestBalance s uid)
                  (latestBalance s uid - dtoT.amount) "Transfer",
                Event.auditTransaction uid s.nextId "TRANSFER"
                  dtoT.amount,
                Event.emailSend snd.email "Transfer" dtoT.amount
                  (latestBalance s uid - dtoT.amount),
                Event.emailSend r.email "Transfer Received" dtoT.amount
                  (latestBalance s r.id + dtoT.amount)], ?_, ?_, ?_⟩
              · simp [transfer, hr, hid, hs, hw, hf2, createTransaction]
              · simp [Event.isSideEffect]
              · simp

/-- Witness for the amended C4: the concrete successful deposit of 50
into account `a`, whose trace is four in-transaction events followed by
the commit. -/
theorem side_effects_inside_transaction_witness :
    ∃ pre, (deposit fundedA "a" ⟨50, none⟩ false).trace =
        pre ++ [Event.commit] ∧
      pre.any Event.isSideEffect = true ∧ Event.commit ∉ pre := by
  refine (side_effects_inside_transaction fundedA "a" ⟨50, none⟩
    ⟨1, none⟩ ⟨"b@x.com", 1, none⟩ false).1
    (createTransaction
      { userId := "a", type := .deposit, amount := 50,
        status := .completed, description := "Deposit",
        recipientUserId := none, balanceBefore := some 100,
        balanceAfter := some 150 } 1 1) ?_
  norm_num [deposit, fundedA, userA, userB, findUserById, latestBalance,
    createTransaction]

/-- One step of the single-account accounting invariant: after any one
deposit/withdraw call, the latest balance equals the updated signed
accumulator and stays non-negative. -/
theorem applyOp_balance (s : LedgerState) (uid : String) (op : AccountOp)
    (acc : ℚ) (hbal : latestBalance s uid = acc) (hnn : 0 ≤ acc) :
    latestBalance (applyOp s uid op).state uid =
      stepAcc op (applyOp s uid op).result acc ∧
    0 ≤ stepAcc op (applyOp s uid op).result acc := by
  rcases op with dto | dto
  · by_cases hv : validAmount dto.amount
    · rcases hu : findUserById s uid with _ | u
      · constructor <;>
          simp [applyOp, depositChecked, hv, deposit, hu, stepAcc, hbal,
            hnn]
      · have hpos : 0 < dto.amount := ((validAmount_iff _).mp hv).1
        have hres : (applyOp s uid (AccountOp.dep dto)).result =
            .ok (createTransaction
              { userId := uid, type := .deposit, amount := dto.amount,
                status := .completed,
                description := dto.description.getD "Deposit",
                balanceBefore := some (latestBalance s uid),
                balanceAfter :=
                  some (latestBalance s uid + dto.amount) }
              s.nextId s.nextId) := by
          simp [applyOp, depositChecked, hv, deposit, hu]
        have hstate : (applyOp s uid (AccountOp.dep dto)).state.balances =
            s.balances ++ [⟨s.nextId + 1, uid, some s.nextId,
              latestBalance s uid, latestBalance s uid + dto.amount,
              some (dto.description.getD "Deposit"), s.nextId + 1⟩] := by
          simp [applyOp, depositChecked, hv, deposit, hu,
            createTransaction]
        rw [hres]
        constructor
        · rw [latestBalance_append s _ _ uid hstate]
          simp [stepAcc, hbal]
        · simp only [stepAcc]
          linarith
    · constructor <;>
        simp [applyOp, depositChecked, hv, stepAcc, hbal, hnn]
  · by_cases hv : validAmount dto.amount
    · rcases hu : findUserById s uid with _ | u
      · constructor <;>
          simp [applyOp, withdrawChecked, hv, withdraw, hu, stepAcc,
            hbal, hnn]
      · by_cases hf : latestBalance s uid < dto.amount
        · have hf2 : acc < dto.amount := hbal ▸ hf
          constructor <;>
            simp [applyOp, withdrawChecked, hv, withdraw, hu, hf2,
              stepAcc, hbal, hnn]
        · have hres : (applyOp s uid (AccountOp.wd dto)).result =
              .ok (createTransaction
                { userId := uid, type := .withdrawal,
                  amount := dto.amount, status := .completed,
                  description := dto.description.getD "Withdrawal",
                  balanceBefore := some (latestBalance s uid),
                  balanceAfter :=
                    some (latestBalance s uid - dto.amount) }
                s.nextId s.nextId) := by
            simp [applyOp, withdrawChecked, hv, withdraw, hu, hf]
          have hstate :
              (applyOp s uid (AccountOp.wd dto)).state.balances =
              s.balances ++ [⟨s.nextId + 1, uid, some s.nextId,
                latestBalance s uid, latestBalance s uid - dto.amount,
                some (dto.description.getD "Withdrawal"),
                s.nextId + 1⟩] := by
            simp [applyOp, withdrawChecked, hv, withdraw, hu, hf,
              createTransaction]
          rw [hres]
          constructor
          · rw [latestBalance_append s _ _ uid hstate]
            simp [stepAcc, hbal]
          · have hle : dto.amount ≤ latestBalance s uid := not_lt.mp hf
            simp only [stepAcc]
            rw [hbal] at hle
            linarith
    · constructor <;>
        simp [applyOp, withdrawChecked, hv, stepAcc, hbal, hnn]

/-- The single-account accounting invariant, iterated over a whole
sequence of operations. -/
theorem runOps_invariant (uid : String) (ops : List AccountOp)
    (s : LedgerState) (acc : ℚ) (hbal : latestBalance s uid = acc)
    (hnn : 0 ≤ acc) :
    latestBalance (runOps uid (s, acc) ops).1 uid =
      (runOps uid (s, acc) ops).2 ∧
    0 ≤ (runOps uid (s, acc) ops).2 := by
  induction ops generalizing s acc with
  | nil => exact ⟨hbal, hnn⟩
  | cons op rest ih =>
    have h := applyOp_balance s uid op acc hbal hnn
    rw [runOps]
    exact ih _ _ h.1 h.2

/-- C2: starting from an empty ledger (balance 0), after any finite
sequence of deposit/withdraw calls on one account the latest balance
equals the sum of the amounts of the accepted deposits minus the sum of
the amounts of the accepted withdrawals (the signed accumulator of
`runOps`), and after every prefix of the sequence the latest balance is
non-negative. -/
theorem balance_conservation (u : User) (ops : List AccountOp) :
    latestBalance (runOps u.id (singleUserInit u, 0) ops).1 u.id =
      (runOps u.id (singleUserInit u, 0) ops).2 ∧
    (∀ pre post : List AccountOp, ops = pre ++ post →
      0 ≤ latestBalance (runOps u.id (singleUserInit u, 0) pre).1 u.id) := by
  have h0 : latestBalance (singleUserInit u) u.id = 0 := rfl
  constructor
  · exact (runOps_invariant u.id ops _ 0 h0 le_rfl).1
  · intro pre post hsplit
    have h := runOps_invariant u.id pre (singleUserInit u) 0 h0 le_rfl
    rw [h.1]
    exact h.2

/-- Witness for C2: deposit 100 then withdraw 40 on a fresh account;
the final balance equals the signed sum, and the balance after the
first operation is non-negative. -/
theorem balance_conservation_witness :
    latestBalance (runOps "a" (singleUserInit userA, 0)
        [AccountOp.dep ⟨100, none⟩, AccountOp.wd ⟨40, none⟩]).1 "a" =
      (runOps "a" (singleUserInit userA, 0)
        [AccountOp.dep ⟨100, none⟩, AccountOp.wd ⟨40, none⟩]).2 ∧
    0 ≤ latestBalance (runOps "a" (singleUserInit userA, 0)
        [AccountOp.dep ⟨100, none⟩]).1 "a" := by
  have h := balance_conservation userA
    [AccountOp.dep ⟨100, none⟩, AccountOp.wd ⟨40, none⟩]
  exact ⟨h.1, h.2 [AccountOp.dep ⟨100, none⟩] [AccountOp.wd ⟨40, none⟩]
    rfl⟩

end Users

